import Mathlib

/-!
Shallow embedding of the excel-splitter-service core (src/app.py).

The embedding models the data the splitting transform operates on
(workbooks, sheets, cells, styles, merged ranges), the filename helpers
`sanitize_filename` / `allowed_file`, the loader boundary
(`openpyxl.load_workbook` as used by `validate_excel_file` and
`split_excel_by_sheets_simple`), and the splitting pipeline
`split_excel_by_sheets_simple` itself.

Exceptions raised by the third-party library inside the per-sheet and
per-style try/except blocks are environmental: the embedding makes them
explicit through a `FailureOracle` telling which sheet extraction raises
and which style-attribute copy raises; the control flow around the oracle
is translated from the source.
-/

namespace ExcelSplitter

/-! ## Data model: workbooks, sheets, cells, styles -/

/-- The value stored in a cell.  openpyxl stores formulas as their literal
source string (the workbook is loaded with data_only=False at
src/app.py:130), never a recomputed value; numbers, text, booleans and
empty cells are the other possibilities the service handles. -/
inductive CellValue where
  | empty : CellValue
  | number : Int → CellValue
  | text : String → CellValue
  | boolean : Bool → CellValue
  | formula : String → CellValue
  deriving DecidableEq, Repr

/-- The five style attributes copied per cell at src/app.py:186-190, in the
order the source copies them. -/
inductive StyleAttr where
  | font : StyleAttr
  | fill : StyleAttr
  | border : StyleAttr
  | alignment : StyleAttr
  | numberFormat : StyleAttr
  deriving DecidableEq, Repr

/-- A cell's explicit style.  The source treats each attribute opaquely
(`cell.font.copy()` etc.), so each attribute is modelled as an opaque
payload string. -/
structure Style where
  font : String
  fill : String
  border : String
  alignment : String
  numberFormat : String
  deriving DecidableEq, Repr

/-- A cell of a source sheet: 1-based coordinate, value, and the explicit
style if any (`cell.has_style` is true exactly when `style` is `some`). -/
structure Cell where
  row : Nat
  col : Nat
  value : CellValue
  style : Option Style
  deriving DecidableEq, Repr

/-- A rectangular merged range (top-left and bottom-right coordinates). -/
structure MergeRange where
  minRow : Nat
  minCol : Nat
  maxRow : Nat
  maxCol : Nat
  deriving DecidableEq, Repr

/-- openpyxl sheet visibility states ('visible', 'hidden', 'veryHidden'). -/
inductive SheetState where
  | visible : SheetState
  | hidden : SheetState
  | veryHidden : SheetState
  deriving DecidableEq, Repr

/-- One worksheet.  Column widths and row heights model
`column_dimensions` / `row_dimensions`: a width/height of 0 models the
Python-falsy values (None or 0) that the `if col_dim.width:` /
`if row_dim.height:` guards at src/app.py:167,172 skip. -/
structure Sheet where
  name : String
  sheet_state : SheetState
  cells : List Cell
  colWidths : List (String × Nat)
  rowHeights : List (Nat × Nat)
  merges : List MergeRange
  deriving DecidableEq, Repr

/-- An in-memory workbook: its sheets in declared order. -/
structure Workbook where
  sheets : List Sheet
  deriving DecidableEq, Repr

/-- `source_wb.sheetnames`. -/
def Workbook.sheetnames (wb : Workbook) : List String :=
  wb.sheets.map Sheet.name

/-- `source_wb[sheet_name]`: openpyxl looks the sheet up by name (names are
unique within a workbook; with duplicates this returns the first match). -/
def wbLookup (wb : Workbook) (name : String) : Option Sheet :=
  wb.sheets.find? (fun s => s.name == name)

/-! ## Filename helpers (src/app.py:47-82) -/

/-- The characters the regex `[<>:"/\\|?*]` at src/app.py:58 replaces. -/
def invalidFilenameChars : List Char :=
  ['<', '>', ':', '"', '/', '\\', '|', '?', '*']

/-- Python `s.strip('. ')`: drop leading and trailing dots and spaces. -/
def stripDotsSpaces (s : String) : String :=
  let isStripped : Char → Bool := fun c => c == '.' || c == ' '
  (((s.toList.dropWhile isStripped).reverse.dropWhile isStripped).reverse).asString

/-- Index of the last occurrence of `c` in `cs`, as Python's `str.rfind`
(-1 when absent). -/
def rfindChar (cs : List Char) (c : Char) : Int :=
  match ((List.range cs.length).filter (fun i => cs.getD i ' ' == c)).getLast? with
  | some i => (i : Int)
  | none => -1

/-- Python slice `s[:k]` for a possibly negative bound `k`. -/
def pySlice (cs : List Char) (k : Int) : List Char :=
  if k ≥ 0 then cs.take k.toNat else cs.take (cs.length - (-k).toNat)

/-- posixpath.splitext: split off the extension at the last dot, provided
the dot lies after the last path separator and some non-dot character of
the basename precedes it (so ".bashrc" has no extension). -/
def splitext (p : String) : String × String :=
  let cs := p.toList
  let sepIndex := rfindChar cs '/'
  let dotIndex := rfindChar cs '.'
  if dotIndex > sepIndex then
    let filenameStart := (sepIndex + 1).toNat
    if (List.range cs.length).any
        (fun k => filenameStart ≤ k && k < dotIndex.toNat && cs.getD k '.' != '.') then
      ((cs.take dotIndex.toNat).asString, (cs.drop dotIndex.toNat).asString)
    else (p, "")
  else (p, "")

/-- sanitize_filename (src/app.py:47-69): replace filesystem-unsafe
characters with underscores, strip leading/trailing dots and spaces, cap
the length at 100 preserving the extension, and fall back to "unnamed"
when the result is empty. -/
def sanitize_filename (filename : String) : String :=
  let replaced :=
    (filename.toList.map
      (fun c => if invalidFilenameChars.contains c then '_' else c)).asString
  let stripped := stripDotsSpaces replaced
  let max_length : Nat := 100
  let limited :=
    if stripped.length > max_length then
      let (name, ext) := splitext stripped
      (pySlice name.toList ((max_length : Int) - ext.length)).asString ++ ext
    else stripped
  if limited = "" then "unnamed" else limited

/-- ALLOWED_EXTENSIONS (src/app.py:29). -/
def ALLOWED_EXTENSIONS : List String := ["xlsx", "xls", "xlsm", "xlsb"]

/-- Characters after the last dot of the filename (Python
`filename.rsplit('.', 1)[1]` when a dot is present). -/
def afterLastDot (cs : List Char) : List Char :=
  ((cs.reverse.takeWhile (fun c => c != '.')).reverse)

/-- allowed_file (src/app.py:72-82): the filename contains a dot and the
lower-cased text after the last dot is an allowed extension. -/
def allowed_file (filename : String) : Bool :=
  filename.toList.contains '.' &&
    ALLOWED_EXTENSIONS.contains ((afterLastDot filename.toList).map Char.toLower).asString

/-! ## Loader boundary (openpyxl.load_workbook, src/app.py:85-101,125-132) -/

/-- Classification of an uploaded byte buffer as a spreadsheet container.
A valid container of some variant decodes to a workbook model; `invalid`
stands for bytes that are not a valid container of any advertised
variant. -/
inductive Container where
  | zipXml : Workbook → Container
  | legacyBinary : Workbook → Container
  | binaryXlsb : Workbook → Container
  | invalid : Container
  deriving DecidableEq, Repr

/-- Model of the third-party loader `openpyxl.load_workbook` called at
src/app.py:97 and src/app.py:126.  openpyxl parses only the modern
zip-based OOXML variants (.xlsx/.xlsm); it raises
(InvalidFileException, BadZipFile, or a CFB/zip parse error) on the legacy
binary .xls format, on the binary .xlsb format, and on bytes that are no
valid container at all.  The raised exception's message is the diagnostic
the service wraps. -/
def openpyxl_load_workbook : Container → Except String Workbook
  | Container.zipXml wb => Except.ok wb
  | Container.legacyBinary _ =>
      Except.error "openpyxl does not support the old .xls file format"
  | Container.binaryXlsb _ =>
      Except.error "openpyxl does not support binary format .xlsb"
  | Container.invalid =>
      Except.error "File is not a zip file"

/-- validate_excel_file (src/app.py:85-101): try to load the bytes with
openpyxl; any exception yields (False, "Invalid Excel file: " + message). -/
def validate_excel_file (c : Container) : Bool × Option String :=
  match openpyxl_load_workbook c with
  | Except.ok _ => (true, none)
  | Except.error e => (false, some ("Invalid Excel file: " ++ e))

/-! ## Per-cell style copying (src/app.py:183-192) -/

/-- The order in which src/app.py:186-190 copies the five style
attributes: font, fill, border, alignment, number_format. -/
def styleAttrOrder : List StyleAttr :=
  [StyleAttr.font, StyleAttr.fill, StyleAttr.border,
   StyleAttr.alignment, StyleAttr.numberFormat]

/-- The source cell's payload for one style attribute. -/
def srcAttrVal (s : Style) : StyleAttr → String
  | StyleAttr.font => s.font
  | StyleAttr.fill => s.fill
  | StyleAttr.border => s.border
  | StyleAttr.alignment => s.alignment
  | StyleAttr.numberFormat => s.numberFormat

/-- The style of a target cell: per attribute, either the payload copied
from the source (`some`) or the target-workbook default (`none`).  A fresh
cell of the new workbook starts with every attribute at default. -/
structure TargetStyle where
  font : Option String
  fill : Option String
  border : Option String
  alignment : Option String
  numberFormat : Option String
  deriving DecidableEq, Repr

/-- Every attribute at the target default: the state of a freshly created
cell of the new workbook. -/
def defaultTargetStyle : TargetStyle :=
  { font := none, fill := none, border := none,
    alignment := none, numberFormat := none }

/-- Read one attribute of a target style. -/
def attrValue (t : TargetStyle) : StyleAttr → Option String
  | StyleAttr.font => t.font
  | StyleAttr.fill => t.fill
  | StyleAttr.border => t.border
  | StyleAttr.alignment => t.alignment
  | StyleAttr.numberFormat => t.numberFormat

/-- Apply the copy of one attribute from the source style. -/
def applyAttr (s : Style) (t : TargetStyle) : StyleAttr → TargetStyle
  | StyleAttr.font => { t with font := some s.font }
  | StyleAttr.fill => { t with fill := some s.fill }
  | StyleAttr.border => { t with border := some s.border }
  | StyleAttr.alignment => { t with alignment := some s.alignment }
  | StyleAttr.numberFormat => { t with numberFormat := some s.numberFormat }

/-- The style-copy block at src/app.py:185-192: one try wraps the five
attribute assignments in `styleAttrOrder`; the first assignment that
raises (per the oracle `fails`) jumps to the except clause, which only
logs, so the attributes copied are exactly the failure-free prefix of the
order and everything from the first failing attribute on stays at the
target default. -/
def copyCellStyle (s : Style) (fails : StyleAttr → Bool) : TargetStyle :=
  (styleAttrOrder.takeWhile (fun a => !fails a)).foldl (applyAttr s) defaultTargetStyle

/-- A cell of the freshly built target sheet. -/
structure TargetCell where
  row : Nat
  col : Nat
  value : CellValue
  style : TargetStyle
  deriving DecidableEq, Repr

/-- The per-cell body of the copy loop at src/app.py:176-192: create the
target cell at the same coordinate, copy the value verbatim, and when the
source cell has an explicit style run the style-copy block (a cell with no
explicit style is left at the target default). -/
def copyCell (attrFails : Nat → Nat → StyleAttr → Bool) (c : Cell) : TargetCell :=
  { row := c.row, col := c.col, value := c.value,
    style :=
      match c.style with
      | none => defaultTargetStyle
      | some s => copyCellStyle s (attrFails c.row c.col) }

/-! ## Per-sheet extraction and serialization (src/app.py:153-207) -/

/-- The single-sheet workbook built for one source sheet, i.e. the decoded
content of the bytes `new_wb.save` produces (the house output format is
the zip-based XML variant).  It carries the sheet name, the copied cells,
the explicitly-set column widths and row heights, and the merges. -/
structure ExtractedSheet where
  name : String
  cells : List TargetCell
  colWidths : List (String × Nat)
  rowHeights : List (Nat × Nat)
  merges : List MergeRange
  deriving DecidableEq, Repr

/-- The blob stored in the result mapping: the serialized bytes of the
single-sheet workbook, modelled by their decoded content. -/
abbrev Blob := ExtractedSheet

/-- Steps 155-201 of the source for one sheet, given that no statement of
the per-sheet body raises: create a new workbook with one sheet named
after the source sheet, copy explicitly-set column widths and row heights
(Python truthiness skips width/height 0 or None, modelled as 0), copy
every cell, copy every merged range, and serialize. -/
def extract_sheet (attrFails : Nat → Nat → StyleAttr → Bool) (ws : Sheet) :
    ExtractedSheet :=
  { name := ws.name,
    colWidths := ws.colWidths.filter (fun p => p.2 != 0),
    rowHeights := ws.rowHeights.filter (fun p => p.2 != 0),
    cells := ws.cells.map (copyCell attrFails),
    merges := ws.merges }

/-- Re-loading a produced blob with the loader: a single-sheet workbook
whose sheet carries the blob's name, cell values at the same coordinates,
dimensions and merges.  Reloaded cell styles are not modelled (no claim
depends on them); reloaded cells carry no explicit-style marker. -/
def load_blob (b : Blob) : Workbook :=
  { sheets :=
      [{ name := b.name,
         sheet_state := SheetState.visible,
         cells := b.cells.map
           (fun tc => { row := tc.row, col := tc.col, value := tc.value, style := none }),
         colWidths := b.colWidths,
         rowHeights := b.rowHeights,
         merges := b.merges }] }

/-- The value of the cell grid at a coordinate: the value of the (unique)
cell there, or empty when no cell occupies the coordinate. -/
def gridValue (cells : List Cell) (r c : Nat) : CellValue :=
  match cells.find? (fun cl => cl.row == r && cl.col == c) with
  | some cl => cl.value
  | none => CellValue.empty

/-! ## The splitting pipeline (src/app.py:104-222) -/

/-- Which library calls raise: `sheetFails name` says the per-sheet body
(lines 155-207) for that sheet raises somewhere before the result
assignment, landing in the per-sheet except (line 210); `attrFails r c a`
says copying style attribute `a` of the cell at (r, c) raises, landing in
the per-cell except (line 191). -/
structure FailureOracle where
  sheetFails : String → Bool
  attrFails : Nat → Nat → StyleAttr → Bool

/-- The run in which no library call raises. -/
def noFailOracle : FailureOracle :=
  { sheetFails := fun _ => false, attrFails := fun _ _ _ => false }

/-- Python dict assignment `d[k] = v`: overwrite the value when the key
exists (keeping its position), else append the new entry. -/
def dictInsert (d : List (String × Blob)) (k : String) (v : Blob) :
    List (String × Blob) :=
  if d.any (fun p => p.1 == k) then
    d.map (fun p => if p.1 == k then (k, v) else p)
  else d ++ [(k, v)]

/-- The output filename built at src/app.py:204-205:
base_name + "_" + sanitize_filename(sheet_name) + ".xlsx". -/
def outputName (base_name sheet_name : String) : String :=
  base_name ++ "_" ++ sanitize_filename sheet_name ++ ".xlsx"

/-- The per-visible-sheet loop at src/app.py:153-213: for each sheet name,
if its body raises the except clause logs and continues with no entry
added; otherwise the sheet is looked up (a failed lookup would raise a
KeyError, also caught per sheet), extracted, and its blob stored under its
output filename by dict assignment. -/
def processSheets (oracle : FailureOracle) (wb : Workbook) (base_name : String) :
    List String → List (String × Blob) → List (String × Blob)
  | [], acc => acc
  | n :: rest, acc =>
      let acc' :=
        if oracle.sheetFails n then acc
        else
          match wbLookup wb n with
          | none => acc
          | some ws =>
              dictInsert acc (outputName base_name n) (extract_sheet oracle.attrFails ws)
      processSheets oracle wb base_name rest acc'

/-- Error message for the sheet-count ceiling (src/app.py:136). -/
def tooManySheetsMsg (n maxSheets : Nat) : String :=
  "File contains too many sheets (" ++ toString n ++ "). Maximum allowed: "
    ++ toString maxSheets

/-- Error message returned when the result mapping is empty
(src/app.py:216). -/
def noSheetsMsg : String := "No sheets could be processed successfully"

/-- Error message of the outer except clause (src/app.py:222), wrapping
the exception text of a failed workbook load. -/
def processingErrMsg (e : String) : String := "Error processing Excel file: " ++ e

/-- MAX_SHEETS (src/app.py:28): read from the environment with default
100.  The pipeline takes the configured value as a parameter. -/
def MAX_SHEETS : Nat := 100

/-- The names the visibility partition at src/app.py:138-146 puts in
`visible_sheets`: iterate `sheetnames`, look each sheet up, and keep the
name when its `sheet_state` is 'visible'.  The `none` branch of the lookup
is unreachable because every name comes from `sheetnames`. -/
def visibleNames (wb : Workbook) : List String :=
  wb.sheetnames.filter (fun n =>
    match wbLookup wb n with
    | some s => s.sheet_state == SheetState.visible
    | none => false)

/-- The names the partition puts in `hidden_sheets`: 'hidden' and
'veryHidden' sheets alike. -/
def hiddenNames (wb : Workbook) : List String :=
  wb.sheetnames.filter (fun n =>
    match wbLookup wb n with
    | some s => !(s.sheet_state == SheetState.visible)
    | none => false)

/-- split_excel_by_sheets_simple (src/app.py:104-222): load the workbook
(a load exception lands in the outer except and yields the wrapped error),
reject when the sheet count exceeds the configured ceiling, partition by
visibility, run the per-sheet loop over the visible names, and return the
mapping — or the empty-mapping error when nothing was produced. -/
def split_excel_by_sheets_simple (maxSheets : Nat) (oracle : FailureOracle)
    (container : Container) (original_filename : String) :
    List (String × Blob) × Option String :=
  let base_name := (splitext original_filename).1
  match openpyxl_load_workbook container with
  | Except.error e => ([], some (processingErrMsg e))
  | Except.ok source_wb =>
      if source_wb.sheetnames.length > maxSheets then
        ([], some (tooManySheetsMsg source_wb.sheetnames.length maxSheets))
      else
        let split_files := processSheets oracle source_wb base_name (visibleNames source_wb) []
        if split_files.isEmpty then ([], some noSheetsMsg)
        else (split_files, none)

/-! ## Basic lemmas about the embedding -/

/-- Python dict lookup `d[k]` / `d.get(k)` on the modelled mapping. -/
def dictGet (d : List (String × Blob)) (k : String) : Option Blob :=
  (d.find? (fun p => p.1 == k)).map Prod.snd

theorem wbLookup_mem {wb : Workbook} {n : String} {s : Sheet}
    (h : wbLookup wb n = some s) : s ∈ wb.sheets ∧ s.name = n := by
  refine ⟨List.mem_of_find?_eq_some h, ?_⟩
  have := List.find?_some h
  simpa using this

theorem mem_visibleNames {wb : Workbook} {n : String} :
    n ∈ visibleNames wb ↔
      n ∈ wb.sheetnames ∧
        ∃ s, wbLookup wb n = some s ∧ s.sheet_state = SheetState.visible := by
  unfold visibleNames
  rw [List.mem_filter]
  constructor
  · rintro ⟨hmem, hpred⟩
    refine ⟨hmem, ?_⟩
    cases hl : wbLookup wb n with
    | none => rw [hl] at hpred; simp at hpred
    | some s =>
        rw [hl] at hpred
        exact ⟨s, rfl, by simpa using hpred⟩
  · rintro ⟨hmem, s, hl, hst⟩
    exact ⟨hmem, by rw [hl]; simpa using hst⟩

/-! ## Claim C1 (per-attribute style-copy isolation) -/

/-- A concrete explicit style for a source cell. -/
def styleC1 : Style :=
  { font := "Calibri;12;bold", fill := "solid;FFFF00", border := "thin;000000",
    alignment := "center;wrap", numberFormat := "0.00%" }

/-- A run in which only the font-copy assignment raises; the other four
attribute copies would succeed. -/
def fontCopyFails : StyleAttr → Bool :=
  fun a => a == StyleAttr.font

/-- Claim C1 is false on the code: the try at src/app.py:185 wraps all five
attribute assignments, so when only the font copy raises, the except
clause is entered before fill, border, alignment and number format are
copied — the whole target style stays at the default, not just the failed
attribute. -/
theorem claim1_counterexample :
    fontCopyFails StyleAttr.font = true ∧
    fontCopyFails StyleAttr.fill = false ∧
    fontCopyFails StyleAttr.border = false ∧
    fontCopyFails StyleAttr.alignment = false ∧
    fontCopyFails StyleAttr.numberFormat = false ∧
    copyCellStyle styleC1 fontCopyFails = defaultTargetStyle := by
  decide

/-- Claim C1 (amended): a failure to copy one style attribute leaves that
attribute and every later attribute (in the order font, fill, border,
alignment, number format) at the target default; the attributes copied
before the first failure keep the source values, and the cell's value is
copied regardless. -/
theorem claim1_style_copy_order :
    (∀ (s : Style) (fails : StyleAttr → Bool) (a : StyleAttr),
        attrValue (copyCellStyle s fails) a =
          if a ∈ styleAttrOrder.takeWhile (fun x => !fails x)
          then some (srcAttrVal s a) else none) ∧
    (∀ (attrFails : Nat → Nat → StyleAttr → Bool) (c : Cell),
        (copyCell attrFails c).value = c.value) := by
  constructor
  · intro s fails a
    cases h1 : fails StyleAttr.font <;> cases h2 : fails StyleAttr.fill <;>
      cases h3 : fails StyleAttr.border <;> cases h4 : fails StyleAttr.alignment <;>
      cases h5 : fails StyleAttr.numberFormat <;> cases a <;>
      simp [copyCellStyle, styleAttrOrder, List.takeWhile, h1, h2, h3, h4, h5,
        applyAttr, attrValue, defaultTargetStyle, srcAttrVal]
  · intro attrFails c
    rfl

/-! ## Claim C4 (advertised container variants vs the loader) -/

/-- A concrete well-formed workbook content. -/
def wbC4 : Workbook :=
  { sheets := [{ name := "Data", sheet_state := SheetState.visible,
                 cells := [], colWidths := [], rowHeights := [], merges := [] }] }

/-- Claim C4 fails on the code: the service advertises the legacy binary
(.xls) and binary (.xlsb) variants in ALLOWED_EXTENSIONS and accepts such
filenames, but the loader it calls (openpyxl.load_workbook) parses only
the zip-based XML variants and raises on a valid legacy-binary or xlsb
container, so validation rejects it and splitting returns the structural
load error. -/
theorem claim4_advertised_variant_rejected :
    "xls" ∈ ALLOWED_EXTENSIONS ∧
    "xlsb" ∈ ALLOWED_EXTENSIONS ∧
    allowed_file "report.xls" = true ∧
    allowed_file "report.xlsb" = true ∧
    (validate_excel_file (Container.zipXml wbC4)).1 = true ∧
    (validate_excel_file (Container.legacyBinary wbC4)).1 = false ∧
    (validate_excel_file (Container.binaryXlsb wbC4)).1 = false ∧
    split_excel_by_sheets_simple MAX_SHEETS noFailOracle
        (Container.legacyBinary wbC4) "report.xls"
      = ([], some (processingErrMsg
          "openpyxl does not support the old .xls file format")) := by
  decide

/-! ## Claim C9 (formula strings copied verbatim) -/

/-- Claim C9: a source cell holding a formula string is copied to the
extracted sheet with the identical, uninterpreted formula string at the
same coordinate (src/app.py:181 copies `cell.value` as-is, and the
workbook is loaded with data_only=False so the value is the formula
source text). -/
theorem claim9_formula_verbatim
    (attrFails : Nat → Nat → StyleAttr → Bool) (ws : Sheet) (c : Cell) (f : String)
    (hc : c ∈ ws.cells) (hv : c.value = CellValue.formula f) :
    ∃ tc, tc ∈ (extract_sheet attrFails ws).cells ∧
      tc.row = c.row ∧ tc.col = c.col ∧ tc.value = CellValue.formula f := by
  refine ⟨copyCell attrFails c, ?_, rfl, rfl, ?_⟩
  · exact List.mem_map_of_mem _ hc
  · simpa [copyCell] using hv

/-- A concrete cell holding the formula of the spec's round-trip example. -/
def formulaCellC9 : Cell :=
  { row := 1, col := 2, value := CellValue.formula "=A1+B1", style := none }

/-- A concrete sheet holding `formulaCellC9`. -/
def sheetC9 : Sheet :=
  { name := "Calc", sheet_state := SheetState.visible, cells := [formulaCellC9],
    colWidths := [], rowHeights := [], merges := [] }

theorem claim9_formula_verbatim_witness :
    ∃ tc, tc ∈ (extract_sheet (fun _ _ _ => false) sheetC9).cells ∧
      tc.row = 1 ∧ tc.col = 2 ∧ tc.value = CellValue.formula "=A1+B1" :=
  claim9_formula_verbatim (fun _ _ _ => false) sheetC9 formulaCellC9 "=A1+B1"
    (by decide) rfl

/-! ## Lemmas about the result mapping and the per-sheet loop -/

theorem dictInsert_keys (d : List (String × Blob)) (k : String) (v : Blob) :
    (dictInsert d k v).map Prod.fst =
      if d.any (fun q => q.1 == k) then d.map Prod.fst
      else d.map Prod.fst ++ [k] := by
  unfold dictInsert
  by_cases hc : d.any (fun q => q.1 == k)
  · rw [if_pos hc, if_pos hc, List.map_map]
    apply List.map_congr_left
    intro q _
    by_cases hk : q.1 == k
    · have : q.1 = k := by simpa using hk
      simp [Function.comp, hk, this]
    · simp [Function.comp, hk]
  · rw [if_neg hc, if_neg hc, List.map_append]
    rfl

theorem dictInsert_not_any {d : List (String × Blob)} {k : String} :
    d.any (fun q => q.1 == k) = false ↔ k ∉ d.map Prod.fst := by
  rw [List.any_eq_false]
  constructor
  · intro h hmem
    rcases List.mem_map.mp hmem with ⟨p, hp, he⟩
    exact (h p hp) (by simpa using he)
  · intro h p hp hbe
    exact h (List.mem_map.mpr ⟨p, hp, by simpa using hbe⟩)

theorem dictInsert_mem {d : List (String × Blob)} {k : String} {v : Blob}
    {p : String × Blob} (h : p ∈ dictInsert d k v) : p ∈ d ∨ p = (k, v) := by
  unfold dictInsert at h
  by_cases hc : d.any (fun q => q.1 == k)
  · rw [if_pos hc] at h
    rcases List.mem_map.mp h with ⟨q, hq, he⟩
    by_cases hk : q.1 == k
    · right; rw [if_pos hk] at he; exact he.symm
    · left; rw [if_neg hk] at he; exact he ▸ hq
  · rw [if_neg hc] at h
    rcases List.mem_append.mp h with h | h
    · exact Or.inl h
    · exact Or.inr (by simpa using h)

theorem find_overwrite_self {d : List (String × Blob)} {k : String} {v : Blob}
    (hc : d.any (fun q => q.1 == k) = true) :
    (d.map (fun q => if q.1 == k then (k, v) else q)).find? (fun p => p.1 == k)
      = some (k, v) := by
  induction d with
  | nil => simp at hc
  | cons q rest ih =>
      by_cases hk : (q.1 == k) = true
      · rw [List.map_cons, if_pos hk, List.find?_cons_of_pos]
        simp
      · have hrest : rest.any (fun q => q.1 == k) = true := by
          rcases List.any_eq_true.mp hc with ⟨p, hp, hpk⟩
          rcases List.mem_cons.mp hp with h | h
          · exact absurd (h ▸ hpk) hk
          · exact List.any_eq_true.mpr ⟨p, h, hpk⟩
        rw [List.map_cons, if_neg hk, List.find?_cons_of_neg]
        exacts [ih hrest, hk]

theorem find_overwrite_other {d : List (String × Blob)} {k k' : String} {v : Blob}
    (hne : k' ≠ k) :
    (d.map (fun q => if q.1 == k then (k, v) else q)).find? (fun p => p.1 == k')
      = d.find? (fun p => p.1 == k') := by
  induction d with
  | nil => rfl
  | cons q rest ih =>
      by_cases hk : (q.1 == k) = true
      · have hq1 : q.1 = k := by simpa using hk
        have h2 : ¬(q.1 == k') = true := by simpa [hq1] using fun h => hne h.symm
        have h1 : ¬((k, v).1 == k') = true := by simpa using fun h => hne h.symm
        rw [List.map_cons, if_pos hk, List.find?_cons_of_neg, List.find?_cons_of_neg]
        exacts [ih, h2, h1]
      · by_cases hk' : (q.1 == k') = true
        · rw [List.map_cons, if_neg hk, List.find?_cons_of_pos, List.find?_cons_of_pos]
          exacts [hk', hk']
        · rw [List.map_cons, if_neg hk, List.find?_cons_of_neg, List.find?_cons_of_neg]
          exacts [ih, hk', hk']

theorem dictGet_dictInsert_self (d : List (String × Blob)) (k : String) (v : Blob) :
    dictGet (dictInsert d k v) k = some v := by
  unfold dictGet dictInsert
  by_cases hc : d.any (fun q => q.1 == k) = true
  · rw [if_pos hc, find_overwrite_self hc]
    rfl
  · have hc' : d.any (fun q => q.1 == k) = false := Bool.eq_false_iff.mpr hc
    rw [if_neg hc, List.find?_append,
      List.find?_eq_none.mpr (List.any_eq_false.mp hc')]
    simp

theorem dictGet_dictInsert_other (d : List (String × Blob)) (k k' : String) (v : Blob)
    (hne : k' ≠ k) : dictGet (dictInsert d k v) k' = dictGet d k' := by
  unfold dictGet dictInsert
  by_cases hc : d.any (fun q => q.1 == k) = true
  · rw [if_pos hc, find_overwrite_other hne]
  · rw [if_neg hc, List.find?_append]
    have h1 : ¬((k, v).1 == k') = true := by simpa using fun h => hne h.symm
    cases hfind : d.find? (fun p => p.1 == k') with
    | none =>
        simp
        exact fun h => hne h.symm
    | some p => simp [hfind]

theorem processSheets_nil (o : FailureOracle) (wb : Workbook) (b : String)
    (acc : List (String × Blob)) : processSheets o wb b [] acc = acc := rfl

theorem processSheets_cons (o : FailureOracle) (wb : Workbook) (b : String)
    (n : String) (rest : List String) (acc : List (String × Blob)) :
    processSheets o wb b (n :: rest) acc =
      processSheets o wb b rest
        (if o.sheetFails n then acc
         else
           match wbLookup wb n with
           | none => acc
           | some ws => dictInsert acc (outputName b n) (extract_sheet o.attrFails ws)) := rfl

theorem processSheets_append (o : FailureOracle) (wb : Workbook) (b : String)
    (l1 l2 : List String) (acc : List (String × Blob)) :
    processSheets o wb b (l1 ++ l2) acc
      = processSheets o wb b l2 (processSheets o wb b l1 acc) := by
  induction l1 generalizing acc with
  | nil => rfl
  | cons n rest ih => rw [List.cons_append, processSheets_cons, processSheets_cons, ih]

theorem processSheets_all_fail {o : FailureOracle} {wb : Workbook} {b : String} :
    ∀ {l : List String} {acc : List (String × Blob)},
      (∀ n ∈ l, o.sheetFails n = true) → processSheets o wb b l acc = acc := by
  intro l
  induction l with
  | nil => intro acc _; rfl
  | cons n rest ih =>
      intro acc h
      rw [processSheets_cons, if_pos (h n (List.mem_cons_self n rest))]
      exact ih (fun m hm => h m (List.mem_cons_of_mem n hm))

theorem processSheets_mem {o : FailureOracle} {wb : Workbook} {b : String} :
    ∀ {l : List String} {acc : List (String × Blob)} {p : String × Blob},
      p ∈ processSheets o wb b l acc →
      p ∈ acc ∨ ∃ n, n ∈ l ∧ o.sheetFails n = false ∧
        ∃ s, wbLookup wb n = some s ∧
          p = (outputName b n, extract_sheet o.attrFails s) := by
  intro l
  induction l with
  | nil => intro acc p h; exact Or.inl h
  | cons n rest ih =>
      intro acc p h
      rw [processSheets_cons] at h
      rcases ih h with hacc | ⟨m, hm, hf, s, hs, hp⟩
      · by_cases hfn : o.sheetFails n
        · rw [if_pos hfn] at hacc
          exact Or.inl hacc
        · rw [if_neg hfn] at hacc
          cases hl : wbLookup wb n with
          | none => rw [hl] at hacc; exact Or.inl hacc
          | some ws =>
              rw [hl] at hacc
              rcases dictInsert_mem hacc with h1 | h1
              · exact Or.inl h1
              · exact Or.inr ⟨n, List.mem_cons_self n rest,
                  Bool.eq_false_iff.mpr hfn, ws, hl, h1⟩
      · exact Or.inr ⟨m, List.mem_cons_of_mem n hm, hf, s, hs, hp⟩

/-- Error message disambiguation: the ceiling rejection and the
empty-result message are distinct strings. -/
theorem tooManySheetsMsg_ne_noSheetsMsg (n m : Nat) :
    tooManySheetsMsg n m ≠ noSheetsMsg := by
  intro h
  have hd : (tooManySheetsMsg n m).data.head? = noSheetsMsg.data.head? := by rw [h]
  rw [show noSheetsMsg.data.head? = some 'N' from rfl] at hd
  unfold tooManySheetsMsg at hd
  simp [String.data_append] at hd

/-- An empty sheet with a given name and visibility. -/
def plainSheet (n : String) (st : SheetState) : Sheet :=
  { name := n, sheet_state := st, cells := [], colWidths := [], rowHeights := [],
    merges := [] }

/-! ## Claim C2 (output blob naming) -/

/-- A workbook with a single visible sheet named "S". -/
def wbC2 : Workbook := { sheets := [plainSheet "S" SheetState.visible] }

/-- Claim C2 is false on the code: the base-name component of the output
name is `os.path.splitext(original_filename)[0]` taken verbatim
(src/app.py:121), with no sanitization; only the sheet-name component is
sanitized (src/app.py:204-205).  For the upload name "a|b.xlsx" the
produced blob is named "a|b_S.xlsx", not the "a_b_S.xlsx" the sanitized
base name would give. -/
theorem claim2_counterexample :
    (split_excel_by_sheets_simple MAX_SHEETS noFailOracle
        (Container.zipXml wbC2) "a|b.xlsx").1.map Prod.fst = ["a|b_S.xlsx"] ∧
    sanitize_filename "a|b" ++ "_" ++ sanitize_filename "S" ++ ".xlsx"
      = "a_b_S.xlsx" ∧
    ("a|b_S.xlsx" : String) ≠ "a_b_S.xlsx" := by
  decide

/-- Claim C2 (amended): every produced blob name is the unsanitized base
name of the uploaded file (its splitext stem), an underscore, the
sanitized sheet name of some visible sheet, and the ".xlsx" extension;
sanitization is applied to the sheet-name component only. -/
theorem claim2_output_naming (maxSheets : Nat) (oracle : FailureOracle)
    (wb : Workbook) (fname : String) (p : String × Blob)
    (hp : p ∈ (split_excel_by_sheets_simple maxSheets oracle
        (Container.zipXml wb) fname).1) :
    ∃ n, n ∈ visibleNames wb ∧
      p.1 = (splitext fname).1 ++ "_" ++ sanitize_filename n ++ ".xlsx" := by
  unfold split_excel_by_sheets_simple at hp
  simp only [openpyxl_load_workbook] at hp
  by_cases hn : wb.sheetnames.length > maxSheets
  · rw [if_pos hn] at hp
    simp at hp
  · rw [if_neg hn] at hp
    by_cases he : (processSheets oracle wb (splitext fname).1 (visibleNames wb) []).isEmpty
    · rw [if_pos he] at hp
      simp at hp
    · rw [if_neg he] at hp
      rcases processSheets_mem hp with h | ⟨n, hn1, _, s, _, hps⟩
      · simp at h
      · refine ⟨n, hn1, ?_⟩
        rw [hps]
        rfl

theorem claim2_output_naming_witness :
    ∃ n, n ∈ visibleNames wbC2 ∧
      ("a|b_S.xlsx" : String)
        = (splitext "a|b.xlsx").1 ++ "_" ++ sanitize_filename n ++ ".xlsx" :=
  claim2_output_naming MAX_SHEETS noFailOracle wbC2 "a|b.xlsx"
    ("a|b_S.xlsx", extract_sheet noFailOracle.attrFails (plainSheet "S" SheetState.visible))
    (by decide)

/-! ## Claim C3 (zero visible sheets vs all extractions failed) -/

/-- A workbook whose only sheet is hidden. -/
def wbAllHidden : Workbook := { sheets := [plainSheet "H" SheetState.hidden] }

/-- A workbook whose only sheet is visible and named "V". -/
def wbOneVisible : Workbook := { sheets := [plainSheet "V" SheetState.visible] }

/-- A run in which extracting the sheet named "V" raises. -/
def oracleFailV : FailureOracle :=
  { sheetFails := fun n => n == "V", attrFails := fun _ _ _ => false }

/-- Claim C3 is false on the code: a workbook with zero visible sheets and
a workbook whose single visible sheet's extraction fails reach the same
`if not split_files` branch (src/app.py:215-216) and return the identical
outcome — empty mapping and the one message "No sheets could be processed
successfully" — so the two causes are not distinguishable. -/
theorem claim3_counterexample :
    visibleNames wbAllHidden = [] ∧
    visibleNames wbOneVisible = ["V"] ∧
    oracleFailV.sheetFails "V" = true ∧
    split_excel_by_sheets_simple MAX_SHEETS oracleFailV
        (Container.zipXml wbAllHidden) "wb.xlsx" = ([], some noSheetsMsg) ∧
    split_excel_by_sheets_simple MAX_SHEETS oracleFailV
        (Container.zipXml wbOneVisible) "wb.xlsx" = ([], some noSheetsMsg) := by
  decide

/-- Claim C3 (amended): a workbook with zero visible sheets and a workbook
whose every visible sheet's extraction failed produce the identical batch
outcome: the empty mapping together with the single error message "No
sheets could be processed successfully". -/
theorem claim3_empty_outcomes_identical (maxSheets : Nat) (oracle : FailureOracle)
    (wb : Workbook) (fname : String)
    (hcount : wb.sheetnames.length ≤ maxSheets)
    (hfail : ∀ n ∈ visibleNames wb, oracle.sheetFails n = true) :
    split_excel_by_sheets_simple maxSheets oracle (Container.zipXml wb) fname
      = ([], some noSheetsMsg) := by
  unfold split_excel_by_sheets_simple
  simp only [openpyxl_load_workbook]
  rw [if_neg (by omega), processSheets_all_fail hfail]
  rfl

theorem claim3_empty_outcomes_identical_witness :
    split_excel_by_sheets_simple MAX_SHEETS oracleFailV
        (Container.zipXml wbAllHidden) "report.xlsx" = ([], some noSheetsMsg) :=
  claim3_empty_outcomes_identical MAX_SHEETS oracleFailV wbAllHidden "report.xlsx"
    (by decide) (by decide)

/-! ## Claim C5 (sheet-count ceiling boundary) -/

/-- Claim C5: a workbook with sheet count exactly the configured ceiling is
not rejected for sheet count (its outcome is the normal processing
outcome, never the TooManySheets message), while a workbook whose sheet
count exceeds the ceiling yields — for every failure oracle, hence before
any extraction work — the empty mapping and the TooManySheets message. -/
theorem claim5_sheet_ceiling (maxSheets : Nat) (oracle : FailureOracle)
    (wb : Workbook) (fname : String) :
    (wb.sheetnames.length = maxSheets →
      ((split_excel_by_sheets_simple maxSheets oracle
          (Container.zipXml wb) fname).2 = none ∨
        (split_excel_by_sheets_simple maxSheets oracle
          (Container.zipXml wb) fname).2 = some noSheetsMsg) ∧
      ∀ n : Nat, (split_excel_by_sheets_simple maxSheets oracle
          (Container.zipXml wb) fname).2 ≠ some (tooManySheetsMsg n maxSheets)) ∧
    (wb.sheetnames.length > maxSheets →
      split_excel_by_sheets_simple maxSheets oracle (Container.zipXml wb) fname
        = ([], some (tooManySheetsMsg wb.sheetnames.length maxSheets))) := by
  constructor
  · intro heq
    have hbranch :
        (split_excel_by_sheets_simple maxSheets oracle
            (Container.zipXml wb) fname).2 = none ∨
        (split_excel_by_sheets_simple maxSheets oracle
            (Container.zipXml wb) fname).2 = some noSheetsMsg := by
      unfold split_excel_by_sheets_simple
      simp only [openpyxl_load_workbook]
      rw [if_neg (by omega)]
      by_cases he :
          (processSheets oracle wb (splitext fname).1 (visibleNames wb) []).isEmpty
      · rw [if_pos he]; exact Or.inr rfl
      · rw [if_neg he]; exact Or.inl rfl
    refine ⟨hbranch, ?_⟩
    intro n hcontra
    rcases hbranch with h | h
    · rw [h] at hcontra; exact Option.noConfusion hcontra
    · rw [h] at hcontra
      exact tooManySheetsMsg_ne_noSheetsMsg n maxSheets
        (Option.some.inj hcontra).symm
  · intro hgt
    unfold split_excel_by_sheets_simple
    simp only [openpyxl_load_workbook]
    rw [if_pos hgt]

/-- A two-sheet workbook for exercising the ceiling boundary. -/
def wbTwoSheets : Workbook :=
  { sheets := [plainSheet "Q1" SheetState.visible, plainSheet "Q2" SheetState.visible] }

theorem claim5_sheet_ceiling_witness :
    (((split_excel_by_sheets_simple 2 noFailOracle
          (Container.zipXml wbTwoSheets) "q.xlsx").2 = none ∨
      (split_excel_by_sheets_simple 2 noFailOracle
          (Container.zipXml wbTwoSheets) "q.xlsx").2 = some noSheetsMsg) ∧
      ∀ n : Nat, (split_excel_by_sheets_simple 2 noFailOracle
          (Container.zipXml wbTwoSheets) "q.xlsx").2
            ≠ some (tooManySheetsMsg n 2)) ∧
    split_excel_by_sheets_simple 1 noFailOracle (Container.zipXml wbTwoSheets) "q.xlsx"
      = ([], some (tooManySheetsMsg 2 1)) :=
  ⟨(claim5_sheet_ceiling 2 noFailOracle wbTwoSheets "q.xlsx").1 (by decide),
   (claim5_sheet_ceiling 1 noFailOracle wbTwoSheets "q.xlsx").2 (by decide)⟩

/-! ## Claim C6 (per-sheet failure isolation) -/

/-- Claim C6: a visible sheet whose extraction raises contributes nothing
to the result — running the per-sheet loop with the failing name in place
is the same as running it with that name removed, so every subsequent
sheet is still processed identically — and every entry of the result
mapping comes from a visible sheet whose extraction did not fail. -/
theorem claim6_sheet_failure_isolated (maxSheets : Nat) (oracle : FailureOracle)
    (wb : Workbook) (fname : String) (l1 l2 : List String) (bad : String)
    (acc : List (String × Blob)) (p : String × Blob)
    (hfail : oracle.sheetFails bad = true) :
    (processSheets oracle wb (splitext fname).1 (l1 ++ bad :: l2) acc
       = processSheets oracle wb (splitext fname).1 (l1 ++ l2) acc) ∧
    (p ∈ (split_excel_by_sheets_simple maxSheets oracle
        (Container.zipXml wb) fname).1 →
      ∃ n, n ∈ visibleNames wb ∧ oracle.sheetFails n = false ∧
        ∃ s, wbLookup wb n = some s ∧
          p = (outputName (splitext fname).1 n, extract_sheet oracle.attrFails s)) := by
  constructor
  · rw [processSheets_append, processSheets_append, processSheets_cons, if_pos hfail]
  · intro hp
    unfold split_excel_by_sheets_simple at hp
    simp only [openpyxl_load_workbook] at hp
    by_cases hn : wb.sheetnames.length > maxSheets
    · rw [if_pos hn] at hp; simp at hp
    · rw [if_neg hn] at hp
      by_cases he :
          (processSheets oracle wb (splitext fname).1 (visibleNames wb) []).isEmpty
      · rw [if_pos he] at hp; simp at hp
      · rw [if_neg he] at hp
        rcases processSheets_mem hp with h | h
        · simp at h
        · exact h

/-- A workbook with a good visible sheet and a failing visible sheet. -/
def wbC6 : Workbook :=
  { sheets := [plainSheet "Good" SheetState.visible,
               plainSheet "Bad" SheetState.visible] }

/-- A run in which extracting the sheet named "Bad" raises. -/
def oracleFailBad : FailureOracle :=
  { sheetFails := fun n => n == "Bad", attrFails := fun _ _ _ => false }

theorem claim6_sheet_failure_isolated_witness :
    (processSheets oracleFailBad wbC6 (splitext "wb.xlsx").1 (["Good"] ++ "Bad" :: []) []
       = processSheets oracleFailBad wbC6 (splitext "wb.xlsx").1 (["Good"] ++ []) []) ∧
    ∃ n, n ∈ visibleNames wbC6 ∧ oracleFailBad.sheetFails n = false ∧
      ∃ s, wbLookup wbC6 n = some s ∧
        (("wb_Good.xlsx" : String),
            extract_sheet oracleFailBad.attrFails (plainSheet "Good" SheetState.visible))
          = (outputName (splitext "wb.xlsx").1 n,
             extract_sheet oracleFailBad.attrFails s) :=
  ⟨(claim6_sheet_failure_isolated MAX_SHEETS oracleFailBad wbC6 "wb.xlsx"
      ["Good"] [] "Bad" []
      (("wb_Good.xlsx" : String),
        extract_sheet oracleFailBad.attrFails (plainSheet "Good" SheetState.visible))
      (by decide)).1,
   (claim6_sheet_failure_isolated MAX_SHEETS oracleFailBad wbC6 "wb.xlsx"
      ["Good"] [] "Bad" []
      (("wb_Good.xlsx" : String),
        extract_sheet oracleFailBad.attrFails (plainSheet "Good" SheetState.visible))
      (by decide)).2 (by decide)⟩

/-! ## Claim C7 (single-visible-sheet round trip) -/

/-- Stripping styles while keeping coordinates and values leaves the cell
grid's value at every coordinate unchanged. -/
theorem gridValue_strip (l : List Cell) (rr cc : Nat) :
    gridValue (l.map (fun c =>
        { row := c.row, col := c.col, value := c.value, style := none })) rr cc
      = gridValue l rr cc := by
  induction l with
  | nil => rfl
  | cons c rest ih =>
      unfold gridValue at ih ⊢
      by_cases h : (c.row == rr && c.col == cc) = true
      · rw [List.map_cons, List.find?_cons_of_pos, List.find?_cons_of_pos]
        exacts [h, h]
      · rw [List.map_cons, List.find?_cons_of_neg, List.find?_cons_of_neg]
        exacts [ih, h, h]

/-- Claim C7: for a workbook within the sheet ceiling whose only visible
sheet is `s`, a run with no library failures produces exactly one blob,
and re-loading that blob yields a workbook with exactly one sheet whose
cell grid is value-identical to the grid of `s` and whose merged ranges
are exactly the merged ranges of `s`. -/
theorem claim7_single_sheet_roundtrip (maxSheets : Nat) (wb : Workbook)
    (fname : String) (n : String) (s : Sheet)
    (hvis : visibleNames wb = [n])
    (hlook : wbLookup wb n = some s)
    (hcount : wb.sheetnames.length ≤ maxSheets) :
    (split_excel_by_sheets_simple maxSheets noFailOracle
        (Container.zipXml wb) fname).1.length = 1 ∧
    (split_excel_by_sheets_simple maxSheets noFailOracle
        (Container.zipXml wb) fname).2 = none ∧
    ∀ p ∈ (split_excel_by_sheets_simple maxSheets noFailOracle
        (Container.zipXml wb) fname).1,
      (load_blob p.2).sheets.length = 1 ∧
      ∀ sh ∈ (load_blob p.2).sheets,
        (∀ rr cc, gridValue sh.cells rr cc = gridValue s.cells rr cc) ∧
        (∀ m : MergeRange, m ∈ sh.merges ↔ m ∈ s.merges) := by
  have hres : split_excel_by_sheets_simple maxSheets noFailOracle
      (Container.zipXml wb) fname
        = ([(outputName (splitext fname).1 n,
             extract_sheet noFailOracle.attrFails s)], none) := by
    unfold split_excel_by_sheets_simple
    simp only [openpyxl_load_workbook]
    rw [if_neg (by omega), hvis, processSheets_cons]
    show (if (processSheets noFailOracle wb (splitext fname).1 []
        (if false = true then [] else
          match wbLookup wb n with
          | none => []
          | some ws => dictInsert [] (outputName (splitext fname).1 n)
              (extract_sheet noFailOracle.attrFails ws))).isEmpty
      then _ else _) = _
    rw [hlook]
    rfl
  rw [hres]
  refine ⟨rfl, rfl, ?_⟩
  intro p hp
  rcases List.mem_singleton.mp hp with rfl
  refine ⟨rfl, ?_⟩
  intro sh hsh
  rcases List.mem_singleton.mp hsh with rfl
  constructor
  · intro rr cc
    show gridValue (((extract_sheet noFailOracle.attrFails s).cells).map _) rr cc
      = gridValue s.cells rr cc
    unfold extract_sheet
    rw [List.map_map]
    have hfun : ((fun tc : TargetCell =>
          ({ row := tc.row, col := tc.col, value := tc.value, style := none } : Cell))
        ∘ copyCell noFailOracle.attrFails)
      = fun c : Cell => { row := c.row, col := c.col, value := c.value, style := none } := by
      funext c
      rfl
    rw [hfun, gridValue_strip]
  · intro m
    exact Iff.rfl

/-- The merge range B2:D4 of the spec's scenario. -/
def mergeC7 : MergeRange := { minRow := 2, minCol := 2, maxRow := 4, maxCol := 4 }

/-- A concrete visible sheet with cells, dimensions and a merge over
mostly-unoccupied coordinates. -/
def sheetC7 : Sheet :=
  { name := "Only", sheet_state := SheetState.visible,
    cells := [{ row := 1, col := 1, value := CellValue.text "hello", style := none },
              { row := 2, col := 2, value := CellValue.number 5, style := some styleC1 }],
    colWidths := [("A", 12)], rowHeights := [(1, 20)], merges := [mergeC7] }

/-- A workbook whose single visible sheet is `sheetC7`. -/
def wbC7 : Workbook :=
  { sheets := [sheetC7, plainSheet "Hid" SheetState.hidden] }

theorem claim7_single_sheet_roundtrip_witness :
    (split_excel_by_sheets_simple MAX_SHEETS noFailOracle
        (Container.zipXml wbC7) "Report.xlsx").1.length = 1 ∧
    (split_excel_by_sheets_simple MAX_SHEETS noFailOracle
        (Container.zipXml wbC7) "Report.xlsx").2 = none ∧
    ∀ p ∈ (split_excel_by_sheets_simple MAX_SHEETS noFailOracle
        (Container.zipXml wbC7) "Report.xlsx").1,
      (load_blob p.2).sheets.length = 1 ∧
      ∀ sh ∈ (load_blob p.2).sheets,
        (∀ rr cc, gridValue sh.cells rr cc = gridValue sheetC7.cells rr cc) ∧
        (∀ m : MergeRange, m ∈ sh.merges ↔ m ∈ sheetC7.merges) :=
  claim7_single_sheet_roundtrip MAX_SHEETS wbC7 "Report.xlsx" "Only" sheetC7
    (by decide) (by decide) (by decide)

/-! ## Claim C8 (visible-sheet count vs result-mapping size) -/

/-- Within the sheet ceiling, the mapping the pipeline returns is the one
the per-sheet loop builds (the empty-mapping error branch also returns
that — empty — mapping). -/
theorem split_files_eq (maxSheets : Nat) (oracle : FailureOracle)
    (wb : Workbook) (fname : String)
    (hcount : wb.sheetnames.length ≤ maxSheets) :
    (split_excel_by_sheets_simple maxSheets oracle (Container.zipXml wb) fname).1
      = processSheets oracle wb (splitext fname).1 (visibleNames wb) [] := by
  unfold split_excel_by_sheets_simple
  simp only [openpyxl_load_workbook]
  rw [if_neg (by omega)]
  by_cases he :
      (processSheets oracle wb (splitext fname).1 (visibleNames wb) []).isEmpty
  · rw [if_pos he]
    exact (List.isEmpty_iff.mp he).symm
  · rw [if_neg he]

theorem dictInsert_keys_mem {d : List (String × Blob)} {k : String} {v : Blob}
    {k' : String} :
    k' ∈ (dictInsert d k v).map Prod.fst ↔ k' ∈ d.map Prod.fst ∨ k' = k := by
  rw [dictInsert_keys]
  by_cases hc : d.any (fun q => q.1 == k) = true
  · rw [if_pos hc]
    constructor
    · exact Or.inl
    · rintro (h | rfl)
      · exact h
      · rcases List.any_eq_true.mp hc with ⟨q, hq, hqk⟩
        have hq1 : q.1 = k' := by simpa using hqk
        exact hq1 ▸ List.mem_map.mpr ⟨q, hq, rfl⟩
  · rw [if_neg hc, List.mem_append, List.mem_singleton]

theorem dictInsert_keys_nodup {d : List (String × Blob)} {k : String} {v : Blob}
    (h : (d.map Prod.fst).Nodup) :
    ((dictInsert d k v).map Prod.fst).Nodup := by
  rw [dictInsert_keys]
  by_cases hc : d.any (fun q => q.1 == k) = true
  · rw [if_pos hc]; exact h
  · rw [if_neg hc]
    have hk : k ∉ d.map Prod.fst := dictInsert_not_any.mp (Bool.eq_false_iff.mpr hc)
    rw [List.nodup_append]
    refine ⟨h, List.nodup_singleton _, ?_⟩
    intro a ha hb
    rw [List.mem_singleton] at hb
    exact hk (hb ▸ ha)

theorem processSheets_keys_nodup {o : FailureOracle} {wb : Workbook} {b : String} :
    ∀ {l : List String} {acc : List (String × Blob)},
      (acc.map Prod.fst).Nodup →
      ((processSheets o wb b l acc).map Prod.fst).Nodup := by
  intro l
  induction l with
  | nil => intro acc h; exact h
  | cons n rest ih =>
      intro acc h
      rw [processSheets_cons]
      apply ih
      by_cases hf : o.sheetFails n
      · rw [if_pos hf]; exact h
      · rw [if_neg hf]
        cases wbLookup wb n with
        | none => exact h
        | some ws => exact dictInsert_keys_nodup h

theorem processSheets_keys_mono {o : FailureOracle} {wb : Workbook} {b : String} :
    ∀ {l : List String} {acc : List (String × Blob)} {k : String},
      k ∈ acc.map Prod.fst →
      k ∈ (processSheets o wb b l acc).map Prod.fst := by
  intro l
  induction l with
  | nil => intro acc k h; exact h
  | cons n rest ih =>
      intro acc k h
      rw [processSheets_cons]
      apply ih
      by_cases hf : o.sheetFails n
      · rw [if_pos hf]; exact h
      · rw [if_neg hf]
        cases wbLookup wb n with
        | none => exact h
        | some ws => exact dictInsert_keys_mem.mpr (Or.inl h)

theorem processSheets_key_present {o : FailureOracle} {wb : Workbook} {b : String} :
    ∀ {l : List String} {acc : List (String × Blob)} {n : String},
      n ∈ l → o.sheetFails n = false → (wbLookup wb n).isSome = true →
      outputName b n ∈ (processSheets o wb b l acc).map Prod.fst := by
  intro l
  induction l with
  | nil => intro acc n h; exact absurd h (List.not_mem_nil n)
  | cons m rest ih =>
      intro acc n hmem hf hs
      rcases List.mem_cons.mp hmem with rfl | hmem'
      · rw [processSheets_cons, if_neg (by rw [hf]; exact Bool.false_ne_true)]
        cases hl : wbLookup wb n with
        | none => rw [hl] at hs; exact absurd hs (by simp)
        | some ws =>
            exact processSheets_keys_mono (dictInsert_keys_mem.mpr (Or.inr rfl))
      · rw [processSheets_cons]
        exact ih hmem' hf hs

/-- Distinct visible sheet names whose sanitized forms collide, plus a
hidden sheet whose own name happens to equal the collided output name. -/
def wbC8 : Workbook :=
  { sheets := [plainSheet "a<" SheetState.visible,
               plainSheet "a>" SheetState.visible,
               plainSheet "b_a_.xlsx" SheetState.hidden] }

/-- Claim C8 is false on the code: the two visible sheets "a<" and "a>"
both sanitize to "a_", so with base name "b" both blobs are stored under
the single key "b_a_.xlsx" and the mapping has 1 entry although N = 2 and
nothing failed; moreover that output name equals the name of the hidden
sheet "b_a_.xlsx", so a hidden sheet's name does appear among the output
names. -/
theorem claim8_counterexample :
    (visibleNames wbC8).length = 2 ∧
    hiddenNames wbC8 = ["b_a_.xlsx"] ∧
    (split_excel_by_sheets_simple MAX_SHEETS noFailOracle
        (Container.zipXml wbC8) "b.xlsx").1.map Prod.fst = ["b_a_.xlsx"] ∧
    (split_excel_by_sheets_simple MAX_SHEETS noFailOracle
        (Container.zipXml wbC8) "b.xlsx").1.length ≠ 2 := by
  decide

/-- Claim C8 (amended): with no per-sheet failures, the keys of the result
mapping are exactly the output names derived from the visible sheet
names — so the mapping has at most N entries, and exactly N when those
derived names are pairwise distinct — the keys are pairwise distinct, and
every entry is produced from a visible sheet (hidden and very-hidden
sheets are never extracted), although a hidden sheet's own name may
coincide with an output name. -/
theorem claim8_visible_output_names (maxSheets : Nat) (oracle : FailureOracle)
    (wb : Workbook) (fname : String)
    (hcount : wb.sheetnames.length ≤ maxSheets)
    (hok : ∀ n ∈ visibleNames wb, oracle.sheetFails n = false) :
    (∀ k, k ∈ (split_excel_by_sheets_simple maxSheets oracle
          (Container.zipXml wb) fname).1.map Prod.fst ↔
        k ∈ (visibleNames wb).map (outputName (splitext fname).1)) ∧
    ((split_excel_by_sheets_simple maxSheets oracle
        (Container.zipXml wb) fname).1.map Prod.fst).Nodup ∧
    (split_excel_by_sheets_simple maxSheets oracle
        (Container.zipXml wb) fname).1.length ≤ (visibleNames wb).length ∧
    (((visibleNames wb).map (outputName (splitext fname).1)).Nodup →
      (split_excel_by_sheets_simple maxSheets oracle
          (Container.zipXml wb) fname).1.length = (visibleNames wb).length) ∧
    (∀ p ∈ (split_excel_by_sheets_simple maxSheets oracle
        (Container.zipXml wb) fname).1,
      ∃ s, s ∈ wb.sheets ∧ s.sheet_state = SheetState.visible ∧
        p.2 = extract_sheet oracle.attrFails s) := by
  have hsplit := split_files_eq maxSheets oracle wb fname hcount
  have hmem : ∀ k, k ∈ (split_excel_by_sheets_simple maxSheets oracle
      (Container.zipXml wb) fname).1.map Prod.fst ↔
        k ∈ (visibleNames wb).map (outputName (splitext fname).1) := by
    intro k
    rw [hsplit]
    constructor
    · intro hk
      rcases List.mem_map.mp hk with ⟨p, hp, hpk⟩
      rcases processSheets_mem hp with h | ⟨n, hn, _, s, _, hps⟩
      · simp at h
      · refine List.mem_map.mpr ⟨n, hn, ?_⟩
        rw [← hpk, hps]
    · intro hk
      rcases List.mem_map.mp hk with ⟨n, hn, hnk⟩
      rcases mem_visibleNames.mp hn with ⟨_, s, hl, _⟩
      exact hnk ▸ processSheets_key_present hn (hok n hn) (by rw [hl]; rfl)
  have hnodup : ((split_excel_by_sheets_simple maxSheets oracle
      (Container.zipXml wb) fname).1.map Prod.fst).Nodup := by
    rw [hsplit]
    exact processSheets_keys_nodup (by simp)
  have hlen : (split_excel_by_sheets_simple maxSheets oracle
      (Container.zipXml wb) fname).1.length
        = ((split_excel_by_sheets_simple maxSheets oracle
            (Container.zipXml wb) fname).1.map Prod.fst).length :=
    (List.length_map _ _).symm
  have hsubfin : ((split_excel_by_sheets_simple maxSheets oracle
      (Container.zipXml wb) fname).1.map Prod.fst).toFinset
        ⊆ ((visibleNames wb).map (outputName (splitext fname).1)).toFinset := by
    intro a ha
    rw [List.mem_toFinset] at ha ⊢
    exact (hmem a).mp ha
  refine ⟨hmem, hnodup, ?_, ?_, ?_⟩
  · calc (split_excel_by_sheets_simple maxSheets oracle
        (Container.zipXml wb) fname).1.length
        = ((split_excel_by_sheets_simple maxSheets oracle
            (Container.zipXml wb) fname).1.map Prod.fst).length := hlen
      _ = ((split_excel_by_sheets_simple maxSheets oracle
            (Container.zipXml wb) fname).1.map Prod.fst).toFinset.card :=
          (List.toFinset_card_of_nodup hnodup).symm
      _ ≤ ((visibleNames wb).map (outputName (splitext fname).1)).toFinset.card :=
          Finset.card_le_card hsubfin
      _ ≤ ((visibleNames wb).map (outputName (splitext fname).1)).length :=
          List.toFinset_card_le _
      _ = (visibleNames wb).length := List.length_map _ _
  · intro hout
    have hperm : List.Perm
        ((split_excel_by_sheets_simple maxSheets oracle
          (Container.zipXml wb) fname).1.map Prod.fst)
        ((visibleNames wb).map (outputName (splitext fname).1)) := by
      apply List.perm_of_nodup_nodup_toFinset_eq hnodup hout
      apply Finset.Subset.antisymm hsubfin
      intro a ha
      rw [List.mem_toFinset] at ha ⊢
      exact (hmem a).mpr ha
    calc (split_excel_by_sheets_simple maxSheets oracle
        (Container.zipXml wb) fname).1.length
        = ((split_excel_by_sheets_simple maxSheets oracle
            (Container.zipXml wb) fname).1.map Prod.fst).length := hlen
      _ = ((visibleNames wb).map (outputName (splitext fname).1)).length :=
          hperm.length_eq
      _ = (visibleNames wb).length := List.length_map _ _
  · intro p hp
    rw [hsplit] at hp
    rcases processSheets_mem hp with h | ⟨n, hn, _, s, hl, hps⟩
    · simp at h
    · rcases mem_visibleNames.mp hn with ⟨_, s2, hl2, hst2⟩
      rw [hl] at hl2
      rcases Option.some.inj hl2 with rfl
      exact ⟨s, (wbLookup_mem hl).1, hst2, by rw [hps]⟩

theorem claim8_visible_output_names_witness :
    (∀ k, k ∈ (split_excel_by_sheets_simple MAX_SHEETS noFailOracle
          (Container.zipXml wbC7) "Report.xlsx").1.map Prod.fst ↔
        k ∈ (visibleNames wbC7).map (outputName (splitext "Report.xlsx").1)) ∧
    ((split_excel_by_sheets_simple MAX_SHEETS noFailOracle
        (Container.zipXml wbC7) "Report.xlsx").1.map Prod.fst).Nodup ∧
    (split_excel_by_sheets_simple MAX_SHEETS noFailOracle
        (Container.zipXml wbC7) "Report.xlsx").1.length ≤ (visibleNames wbC7).length ∧
    (((visibleNames wbC7).map (outputName (splitext "Report.xlsx").1)).Nodup →
      (split_excel_by_sheets_simple MAX_SHEETS noFailOracle
          (Container.zipXml wbC7) "Report.xlsx").1.length
        = (visibleNames wbC7).length) ∧
    (∀ p ∈ (split_excel_by_sheets_simple MAX_SHEETS noFailOracle
        (Container.zipXml wbC7) "Report.xlsx").1,
      ∃ s, s ∈ wbC7.sheets ∧ s.sheet_state = SheetState.visible ∧
        p.2 = extract_sheet noFailOracle.attrFails s) :=
  claim8_visible_output_names MAX_SHEETS noFailOracle wbC7 "Report.xlsx"
    (by decide) (by decide)

/-! ## Claim C10 (sanitized-name collisions: last write wins) -/

/-- The last name of `names` whose sheet is processed successfully into
the output key `k`: not failing, resolvable, and with output name `k`. -/
def lastSuccessFor (oracle : FailureOracle) (wb : Workbook) (b : String)
    (names : List String) (k : String) : Option String :=
  (names.filter (fun n =>
    !oracle.sheetFails n && (wbLookup wb n).isSome && (outputName b n == k))).getLast?

theorem processSheets_dictGet {o : FailureOracle} {wb : Workbook} {b : String}
    {k : String} :
    ∀ {l : List String} {acc : List (String × Blob)},
      dictGet (processSheets o wb b l acc) k =
        match lastSuccessFor o wb b l k with
        | some n => (wbLookup wb n).map (extract_sheet o.attrFails)
        | none => dictGet acc k := by
  intro l
  induction l with
  | nil => intro acc; rfl
  | cons n rest ih =>
      intro acc
      rw [processSheets_cons]
      by_cases hpred : (!o.sheetFails n && (wbLookup wb n).isSome
          && (outputName b n == k)) = true
      · have hparts := hpred
        simp only [Bool.and_eq_true, Bool.not_eq_true'] at hparts
        obtain ⟨⟨hf, hs⟩, hk⟩ := hparts
        have hkeq : outputName b n = k := by simpa using hk
        rcases Option.isSome_iff_exists.mp hs with ⟨ws, hl⟩
        rw [if_neg (by rw [hf]; exact Bool.false_ne_true), hl]
        have hlast : lastSuccessFor o wb b (n :: rest) k
            = match lastSuccessFor o wb b rest k with
              | some m => some m
              | none => some n := by
          unfold lastSuccessFor
          rw [List.filter_cons]
          simp only [hpred, if_true]
          cases hxs : rest.filter (fun m =>
              !o.sheetFails m && (wbLookup wb m).isSome && (outputName b m == k)) with
          | nil => rfl
          | cons x xs =>
              rw [List.getLast?_cons_cons]
              cases hy : (x :: xs).getLast? with
              | some y => rfl
              | none => exact absurd hy (by simp)
        rw [ih, hlast]
        cases hrest : lastSuccessFor o wb b rest k with
        | some m => rfl
        | none =>
            show dictGet (dictInsert acc (outputName b n) (extract_sheet o.attrFails ws)) k
              = (wbLookup wb n).map (extract_sheet o.attrFails)
            rw [hl, ← hkeq, dictGet_dictInsert_self]
            rfl
      · have hflt : (!o.sheetFails n && (wbLookup wb n).isSome
            && (outputName b n == k)) = false := Bool.eq_false_iff.mpr hpred
        have hlast : lastSuccessFor o wb b (n :: rest) k = lastSuccessFor o wb b rest k := by
          unfold lastSuccessFor
          simp only [List.filter_cons, hflt, Bool.false_eq_true, if_false]
        by_cases hf : o.sheetFails n
        · rw [if_pos hf, ih, hlast]
        · rw [if_neg hf]
          cases hl : wbLookup wb n with
          | none => rw [ih, hlast]
          | some ws =>
              have hkne : outputName b n ≠ k := by
                intro he
                apply hpred
                simp [hf, hl, he]
              rw [ih, hlast]
              cases hrest : lastSuccessFor o wb b rest k with
              | some m => rfl
              | none => exact dictGet_dictInsert_other acc (outputName b n) k _ (Ne.symm hkne)

/-- Claim C10: when two distinct visible sheet names `n1` and `n2` are
both extracted successfully but derive the same output name `k`, the
result mapping holds exactly one entry under `k`, that entry is the blob
of whichever colliding sheet was processed last, and the mapping has
strictly fewer entries than the number of successfully extracted
sheets. -/
theorem claim10_collision_last_wins (maxSheets : Nat) (oracle : FailureOracle)
    (wb : Workbook) (fname : String) (k n1 n2 : String)
    (hcount : wb.sheetnames.length ≤ maxSheets)
    (h1 : n1 ∈ visibleNames wb) (h2 : n2 ∈ visibleNames wb) (hne : n1 ≠ n2)
    (hf1 : oracle.sheetFails n1 = false) (hf2 : oracle.sheetFails n2 = false)
    (hk1 : outputName (splitext fname).1 n1 = k)
    (hk2 : outputName (splitext fname).1 n2 = k) :
    ((split_excel_by_sheets_simple maxSheets oracle
        (Container.zipXml wb) fname).1.map Prod.fst).count k = 1 ∧
    dictGet (split_excel_by_sheets_simple maxSheets oracle
        (Container.zipXml wb) fname).1 k
      = (lastSuccessFor oracle wb (splitext fname).1 (visibleNames wb) k).bind
          (fun n => (wbLookup wb n).map (extract_sheet oracle.attrFails)) ∧
    (split_excel_by_sheets_simple maxSheets oracle
        (Container.zipXml wb) fname).1.length
      < ((visibleNames wb).filter (fun n => !oracle.sheetFails n)).length := by
  have hsplit := split_files_eq maxSheets oracle wb fname hcount
  have hs1 : (wbLookup wb n1).isSome = true := by
    rcases mem_visibleNames.mp h1 with ⟨_, s, hl, _⟩
    rw [hl]; rfl
  have hkeys : k ∈ (split_excel_by_sheets_simple maxSheets oracle
      (Container.zipXml wb) fname).1.map Prod.fst := by
    rw [hsplit, ← hk1]
    exact processSheets_key_present h1 hf1 hs1
  have hnodup : ((split_excel_by_sheets_simple maxSheets oracle
      (Container.zipXml wb) fname).1.map Prod.fst).Nodup := by
    rw [hsplit]
    exact processSheets_keys_nodup (by simp)
  refine ⟨?_, ?_, ?_⟩
  · exact Nat.le_antisymm (List.nodup_iff_count_le_one.mp hnodup k)
      (List.count_pos_iff.mpr hkeys)
  · rw [hsplit, processSheets_dictGet]
    cases lastSuccessFor oracle wb (splitext fname).1 (visibleNames wb) k with
    | some m => rfl
    | none => rfl
  · have hsucc2 : n2 ∈ (visibleNames wb).filter (fun n => !oracle.sheetFails n) :=
      List.mem_filter.mpr ⟨h2, by rw [hf2]; rfl⟩
    have hsub : ∀ x ∈ (split_excel_by_sheets_simple maxSheets oracle
        (Container.zipXml wb) fname).1.map Prod.fst,
        x ∈ (((visibleNames wb).filter (fun n => !oracle.sheetFails n)).erase n2).map
            (outputName (splitext fname).1) := by
      intro x hx
      rcases List.mem_map.mp hx with ⟨p, hp, hpx⟩
      rw [hsplit] at hp
      rcases processSheets_mem hp with h | ⟨n, hn, hnf, s, _, hps⟩
      · simp at h
      · have hxn : x = outputName (splitext fname).1 n := by rw [← hpx, hps]
        by_cases hnn2 : n = n2
        · refine List.mem_map.mpr ⟨n1, ?_, ?_⟩
          · exact (List.mem_erase_of_ne hne).mpr
              (List.mem_filter.mpr ⟨h1, by rw [hf1]; rfl⟩)
          · rw [hxn, hnn2, hk2, hk1]
        · refine List.mem_map.mpr ⟨n, ?_, hxn.symm⟩
          exact (List.mem_erase_of_ne hnn2).mpr
            (List.mem_filter.mpr ⟨hn, by rw [hnf]; rfl⟩)
    have hsubfin : ((split_excel_by_sheets_simple maxSheets oracle
        (Container.zipXml wb) fname).1.map Prod.fst).toFinset
          ⊆ ((((visibleNames wb).filter (fun n => !oracle.sheetFails n)).erase n2).map
              (outputName (splitext fname).1)).toFinset := by
      intro a ha
      rw [List.mem_toFinset] at ha ⊢
      exact hsub a ha
    have hlt : ((((visibleNames wb).filter (fun n => !oracle.sheetFails n)).erase n2).map
        (outputName (splitext fname).1)).length
          < ((visibleNames wb).filter (fun n => !oracle.sheetFails n)).length := by
      rw [List.length_map, List.length_erase_of_mem hsucc2]
      have hpos : 0 < ((visibleNames wb).filter (fun n => !oracle.sheetFails n)).length :=
        List.length_pos.mpr (List.ne_nil_of_mem hsucc2)
      omega
    calc (split_excel_by_sheets_simple maxSheets oracle
        (Container.zipXml wb) fname).1.length
        = ((split_excel_by_sheets_simple maxSheets oracle
            (Container.zipXml wb) fname).1.map Prod.fst).length :=
          (List.length_map _ _).symm
      _ = ((split_excel_by_sheets_simple maxSheets oracle
            (Container.zipXml wb) fname).1.map Prod.fst).toFinset.card :=
          (List.toFinset_card_of_nodup hnodup).symm
      _ ≤ ((((visibleNames wb).filter (fun n => !oracle.sheetFails n)).erase n2).map
            (outputName (splitext fname).1)).toFinset.card :=
          Finset.card_le_card hsubfin
      _ ≤ ((((visibleNames wb).filter (fun n => !oracle.sheetFails n)).erase n2).map
            (outputName (splitext fname).1)).length := List.toFinset_card_le _
      _ < ((visibleNames wb).filter (fun n => !oracle.sheetFails n)).length := hlt

theorem claim10_collision_last_wins_witness :
    ((split_excel_by_sheets_simple MAX_SHEETS noFailOracle
        (Container.zipXml wbC8) "b.xlsx").1.map Prod.fst).count "b_a_.xlsx" = 1 ∧
    dictGet (split_excel_by_sheets_simple MAX_SHEETS noFailOracle
        (Container.zipXml wbC8) "b.xlsx").1 "b_a_.xlsx"
      = (lastSuccessFor noFailOracle wbC8 (splitext "b.xlsx").1
          (visibleNames wbC8) "b_a_.xlsx").bind
          (fun n => (wbLookup wbC8 n).map (extract_sheet noFailOracle.attrFails)) ∧
    (split_excel_by_sheets_simple MAX_SHEETS noFailOracle
        (Container.zipXml wbC8) "b.xlsx").1.length
      < ((visibleNames wbC8).filter (fun n => !noFailOracle.sheetFails n)).length :=
  claim10_collision_last_wins MAX_SHEETS noFailOracle wbC8 "b.xlsx"
    "b_a_.xlsx" "a<" "a>" (by decide) (by decide) (by decide) (by decide)
    (by decide) (by decide) (by decide) (by decide)

end ExcelSplitter
